import Mathlib

/-!
Shallow embedding of the bounded double-ended container (`PyDeque` and its
iterators) from `vm/src/stdlib/collections.rs`, together with theorems
settling the specification claims about it.

Modelling conventions:
* `VecDeque<PyObjectRef>` becomes `List α` (front of the deque = head of the
  list, back = last element); elements are an arbitrary type with decidable
  equality, standing for object handles compared by value.
* The `state` field (a `usize` bumped with wrapping `fetch_add(1)`) becomes a
  `Nat` together with `bump`, which adds one modulo `2^64`.
* Fallible operations return a `DRes`; operations that mutate before they can
  fail return the post-state of the container alongside the result, so the
  effect of a failed call is visible.
* The shared-reference iterators are modelled by passing the current container
  value explicitly to each advance step.
-/

namespace DequeSpec

/-- The error kinds surfaced by the container core (spec §7). -/
inductive DequeErr where
  | emptyContainer
  | outOfRange
  | full
  | notFound
  | concurrentMutation
  | typeMismatch
  | sizeOverflow
  deriving DecidableEq, Repr

/-- Result of a fallible container operation (`PyResult` in the source). -/
inductive DRes (α : Type) where
  | ok (val : α)
  | err (e : DequeErr)
  deriving DecidableEq, Repr

def DRes.isOk {α : Type} : DRes α → Bool
  | .ok _ => true
  | .err _ => false

/-- Embeds `usize::MAX + 1`: the modulus of the wrapping `fetch_add` on `state`. -/
def USIZE : Nat := 18446744073709551616

/-- Embeds `isize::MAX`, the largest representable collection size. -/
def SIZE_LIMIT : Nat := 9223372036854775807

/-- Embeds `self.state.fetch_add(1)` — wrapping increment of the generation counter. -/
def bump (s : Nat) : Nat := (s + 1) % USIZE

/-- The container: `PyDeque { deque, maxlen, state }`. -/
structure Deque (α : Type) where
  elements : List α
  maxlen : Option Nat
  state : Nat
  deriving DecidableEq, Repr

namespace Deque

variable {α : Type}

/-- Embeds `PyDeque::append`: bump the state; if the length has reached `maxlen`,
pop the front element; push the new element at the back. -/
def append (d : Deque α) (x : α) : Deque α :=
  let els := if d.maxlen = some d.elements.length then d.elements.tail else d.elements
  { elements := els ++ [x], maxlen := d.maxlen, state := bump d.state }

/-- Embeds `PyDeque::appendleft`: bump the state; if the length has reached `maxlen`,
pop the back element; push the new element at the front. -/
def appendleft (d : Deque α) (x : α) : Deque α :=
  let els := if d.maxlen = some d.elements.length then d.elements.dropLast else d.elements
  { elements := x :: els, maxlen := d.maxlen, state := bump d.state }

/-- Embeds `PyDeque::clear`: bump the state and drop all elements. -/
def clear (d : Deque α) : Deque α :=
  { elements := [], maxlen := d.maxlen, state := bump d.state }

/-- Embeds `PyDeque::pop`: bump the state, then pop the back element; an empty
container yields an index error ("pop from an empty deque"). -/
def pop (d : Deque α) : Deque α × DRes α :=
  match d.elements.getLast? with
  | some x =>
      ({ elements := d.elements.dropLast, maxlen := d.maxlen, state := bump d.state }, .ok x)
  | none => ({ d with state := bump d.state }, .err .emptyContainer)

/-- Embeds `PyDeque::popleft`: bump the state, then pop the front element; an empty
container yields an index error ("pop from an empty deque"). -/
def popleft (d : Deque α) : Deque α × DRes α :=
  match d.elements.head? with
  | some x =>
      ({ elements := d.elements.tail, maxlen := d.maxlen, state := bump d.state }, .ok x)
  | none => ({ d with state := bump d.state }, .err .emptyContainer)

/-- Embeds `PyDeque::_extend`: bump the state once, materialize the incoming
sequence, then trim: if `maxlen` exceeds the incoming length, drain the
existing content from the front so the combined length fits; otherwise clear
the existing content and drop the incoming sequence's leading elements beyond
`maxlen`; finally append the remaining incoming elements at the back. -/
def extend (d : Deque α) (xs : List α) : Deque α :=
  let s := bump d.state
  match d.maxlen with
  | some m =>
      if m > xs.length then
        let drainUntil := d.elements.length - (m - xs.length)
        { elements := d.elements.drop drainUntil ++ xs, maxlen := d.maxlen, state := s }
      else
        { elements := xs.drop (xs.length - m), maxlen := d.maxlen, state := s }
  | none => { elements := d.elements ++ xs, maxlen := d.maxlen, state := s }

/-- Embeds `PyDeque::extendleft`: reverse the incoming sequence; if `maxlen` exceeds
its length, truncate the existing content to the leading `maxlen - len`
elements, otherwise clear it and truncate the reversed input to `maxlen`;
prepend the result. The state is never bumped. -/
def extendleft (d : Deque α) (xs : List α) : Deque α :=
  let elements := xs.reverse
  match d.maxlen with
  | some m =>
      if m > elements.length then
        { elements := elements ++ d.elements.take (m - elements.length),
          maxlen := d.maxlen, state := d.state }
      else
        { elements := elements.take m, maxlen := d.maxlen, state := d.state }
  | none => { elements := elements ++ d.elements, maxlen := d.maxlen, state := d.state }

/-- Embeds `PyDeque::insert`: bump the state; fail with "deque already at its maximum
size" when full; otherwise clamp the signed index (a negative index whose
magnitude exceeds the length clamps to 0, a positive index beyond the length
clamps to the length) and insert there. -/
def insert (d : Deque α) (idx : Int) (x : α) : Deque α × DRes Unit :=
  let s := bump d.state
  if d.maxlen = some d.elements.length then
    ({ d with state := s }, .err .full)
  else
    let n := d.elements.length
    let i : Nat :=
      if idx < 0 then
        if (-idx).toNat > n then 0 else n - (-idx).toNat
      else if idx.toNat > n then n else idx.toNat
    ({ elements := d.elements.take i ++ x :: d.elements.drop i,
       maxlen := d.maxlen, state := s }, .ok ())

/-- Embeds `PyDeque::remove`: scan for the first element equal to the needle; if
found, bump the state and remove it, returning the removed element; otherwise
fail with a value error, touching nothing. -/
def remove [DecidableEq α] (d : Deque α) (x : α) : Deque α × DRes α :=
  match d.elements.findIdx? (· = x) with
  | some i =>
      ({ elements := d.elements.take i ++ d.elements.drop (i + 1),
         maxlen := d.maxlen, state := bump d.state },
       .ok (d.elements.getD i x))
  | none => (d, .err .notFound)

/-- Embeds `PyDeque::reverse`: replace the content by its reversal. The state is
never bumped. -/
def reverse (d : Deque α) : Deque α :=
  { elements := d.elements.reverse, maxlen := d.maxlen, state := d.state }

/-- Embeds `PyDeque::rotate`: bump the state; on a non-empty deque reduce the
argument (default 1) modulo the length with Rust's truncating `%`, then rotate
right for a non-negative remainder and left for a negative one. -/
def rotate (d : Deque α) (mid : Option Int) : Deque α :=
  let s := bump d.state
  if d.elements.isEmpty then { d with state := s }
  else
    let m := Int.tmod (mid.getD 1) (d.elements.length : Int)
    let els :=
      if m < 0 then
        d.elements.drop (-m).toNat ++ d.elements.take (-m).toNat
      else
        d.elements.drop (d.elements.length - m.toNat) ++
          d.elements.take (d.elements.length - m.toNat)
    { elements := els, maxlen := d.maxlen, state := s }

end Deque

/-- Modelled from the spec: the signed-index resolution helper
(`SequenceIndexOp::wrapped_at`) used by indexed get/set/delete is not part of
the sampled source. Spec §4.2: "A negative index `i` is resolved to `len + i`;
the result must lie in `[0, len)` ... else the operation fails with an
out-of-range error." -/
def wrappedAt (i : Int) (len : Nat) : Option Nat :=
  let r : Int := if i < 0 then (len : Int) + i else i
  if 0 ≤ r ∧ r < (len : Int) then some r.toNat else none

namespace Deque

variable {α : Type}

/-- Embeds `PyDeque::__getitem__`: resolve the signed index; on success return the
element, otherwise fail with "deque index out of range". No state change. -/
def getitem (d : Deque α) (i : Int) : DRes α :=
  match wrappedAt i d.elements.length with
  | some j =>
      match d.elements[j]? with
      | some x => .ok x
      | none => .err .outOfRange
  | none => .err .outOfRange

/-- Embeds `PyDeque::__setitem__`: resolve the signed index; on success replace the
element in place, otherwise fail with "deque index out of range". The state is
never bumped. -/
def setitem (d : Deque α) (i : Int) (x : α) : Deque α × DRes Unit :=
  match wrappedAt i d.elements.length with
  | some j =>
      if j < d.elements.length then
        ({ elements := d.elements.set j x, maxlen := d.maxlen, state := d.state }, .ok ())
      else (d, .err .outOfRange)
  | none => (d, .err .outOfRange)

/-- Embeds `PyDeque::__delitem__`: resolve the signed index; on success remove the
element, otherwise fail with "deque index out of range". The state is never
bumped. -/
def delitem (d : Deque α) (i : Int) : Deque α × DRes Unit :=
  match wrappedAt i d.elements.length with
  | some j =>
      if j < d.elements.length then
        ({ elements := d.elements.take j ++ d.elements.drop (j + 1),
           maxlen := d.maxlen, state := d.state }, .ok ())
      else (d, .err .outOfRange)
  | none => (d, .err .outOfRange)

end Deque

/-- Modelled from the spec: the repeat-count / overflow check
(`vm.check_repeat_or_overflow_error`) is not part of the sampled source.
Spec §4.4: repetition "fails with an overflow error if the requested total
size cannot be represented" (the representable bound is the signed machine
size maximum `SIZE_LIMIT`); a non-positive count yields zero repetitions. -/
def checkRepeat (len : Nat) (n : Int) : DRes Nat :=
  if n ≤ 0 then .ok 0
  else if len * n.toNat > SIZE_LIMIT then .err .sizeOverflow
  else .ok n.toNat

/-- Concatenation of `n` copies of a list: `deque.iter().cycle().take(n*len)`. -/
def repeatList {α : Type} (l : List α) : Nat → List α
  | 0 => []
  | n + 1 => l ++ repeatList l n

namespace Deque

variable {α : Type}

/-- Embeds `PyDeque::_mul`: check the repeat count for overflow; build the `n`-fold
repetition and, when bounded, skip the leading elements beyond `maxlen`
(keeping the tail of the repeated sequence). -/
def mulElements (d : Deque α) (n : Int) : DRes (List α) :=
  match checkRepeat d.elements.length n with
  | .err e => .err e
  | .ok reps =>
      let mulLen := reps * d.elements.length
      let skipped :=
        match d.maxlen with
        | some m => mulLen - m
        | none => 0
      .ok ((repeatList d.elements reps).drop skipped)

/-- Embeds `PyDeque::__mul__`: a new deque holding `_mul`'s elements, with the same
`maxlen` and a fresh state of 0. -/
def mul (d : Deque α) (n : Int) : DRes (Deque α) :=
  match d.mulElements n with
  | .err e => .err e
  | .ok els => .ok { elements := els, maxlen := d.maxlen, state := 0 }

/-- Embeds `PyDeque::__imul__`: replace the content in place by `_mul`'s elements.
The state is never bumped. -/
def imul (d : Deque α) (n : Int) : DRes (Deque α) :=
  match d.mulElements n with
  | .err e => .err e
  | .ok els => .ok { elements := els, maxlen := d.maxlen, state := d.state }

/-- Embeds `PyDeque::concat` (used by `__add__`): append the other deque's elements,
drain the leading elements beyond `maxlen`, and wrap the result in a new deque
with the same `maxlen` and a fresh state of 0. (The type-error branch for a
non-deque operand is outside this typed embedding.) -/
def concat (d other : Deque α) : Deque α :=
  let combined := d.elements ++ other.elements
  let skipped :=
    match d.maxlen with
    | some m => combined.length - m
    | none => 0
  { elements := combined.drop skipped, maxlen := d.maxlen, state := 0 }

end Deque

/-- Embeds `Initializer for PyDeque` (`init`): parse the optional `maxlen` argument
(negative values are rejected), materialize the optional iterable, trim it
from the front to the capacity, and build the container (the freshly
constructed default container has state 0, which `init` does not touch). -/
def initDeque {α : Type} (iterable : Option (List α)) (maxlenArg : Option Int) :
    DRes (Deque α) :=
  match maxlenArg with
  | some v =>
      if v < 0 then .err .typeMismatch
      else
        let m := v.toNat
        let els :=
          match iterable with
          | some xs => xs.drop (xs.length - m)
          | none => []
        .ok { elements := els, maxlen := some m, state := 0 }
  | none =>
      .ok { elements := iterable.getD [], maxlen := none, state := 0 }

/-- The reconstruction triple produced by `PyDeque::__reduce__`: the
constructor arguments (an empty iterable plus the capacity when bounded,
no arguments when unbounded), and a cursor over the current elements. -/
structure ReduceTriple (α : Type) where
  iterableArg : Option (List α)
  maxlenArg : Option Int
  items : List α
  deriving DecidableEq, Repr

/-- Embeds `PyDeque::__reduce__`: capture `((), maxlen)` as constructor arguments
when bounded (no arguments when unbounded) and a cursor over the elements. -/
def reduceDeque {α : Type} (d : Deque α) : ReduceTriple α :=
  match d.maxlen with
  | some v => ⟨some [], some (v : Int), d.elements⟩
  | none => ⟨none, none, d.elements⟩

/-- Replay of the reconstruction triple: call the constructor with the
captured arguments, then repopulate by feeding the cursor's elements to
bulk-append (`extend`), as the serialization protocol does. -/
def replay {α : Type} (t : ReduceTriple α) : DRes (Deque α) :=
  match initDeque t.iterableArg t.maxlenArg with
  | .err e => .err e
  | .ok d0 => .ok (d0.extend t.items)

/-- The capacity invariant of the data model: when bounded, the length does
not exceed the capacity. -/
def withinCap {α : Type} (d : Deque α) : Prop :=
  d.elements.length ≤ d.maxlen.getD d.elements.length

instance {α : Type} (d : Deque α) : Decidable (withinCap d) := by
  unfold withinCap; infer_instance

/-- A cursor over a deque (`PyDequeIterator` / `PyReverseDequeIterator`).
`capturedState` is the container's generation at construction; `active` is the
Active/Exhausted status (the co-owning reference held while Active is not
modelled; the current container value is passed explicitly to each advance). -/
structure DequeIter where
  capturedState : Nat
  position : Nat
  active : Bool
  deriving DecidableEq, Repr

/-- Embeds `PyDequeIterator::new`: capture the deque's state, start at position 0,
Active. -/
def newDequeIter {α : Type} (d : Deque α) : DequeIter :=
  ⟨d.state, 0, true⟩

/-- Embeds `PyDeque::__reversed__`: the reverse cursor likewise captures the state
and starts at position 0 (counting from the tail), Active. -/
def newReverseDequeIter {α : Type} (d : Deque α) : DequeIter :=
  ⟨d.state, 0, true⟩

/-- The access step of `IterNext for PyDequeIterator`: fail with "Deque
mutated during iteration" when the container's state differs from the
captured state — before any element access — otherwise fetch the element at
`pos` from the head (`none` signals end of sequence). -/
def dequeIterBody {α : Type} (captured : Nat) (d : Deque α) (pos : Nat) :
    DRes (Option α) :=
  if captured ≠ d.state then .err .concurrentMutation
  else .ok d.elements[pos]?

/-- The access step of `IterNext for PyReverseDequeIterator`: the same state
check first, then fetch the element at `len - pos - 1` from the head (the
checked subtraction signals end of sequence on underflow). -/
def reverseDequeIterBody {α : Type} (captured : Nat) (d : Deque α) (pos : Nat) :
    DRes (Option α) :=
  if d.state ≠ captured then .err .concurrentMutation
  else if pos + 1 ≤ d.elements.length then .ok d.elements[d.elements.length - (pos + 1)]?
  else .ok none

/-- Modelled from the spec: the cursor-advance wrapper
(`PositionIterInternal::next`) is not part of the sampled source. Spec §4.3:
an Exhausted cursor keeps reporting end of sequence; an Active cursor performs
the access at its position, incrementing the position on success and
transitioning to Exhausted when no element is found; a mutation-detected
failure is surfaced to the caller (who must discard the cursor, so the
post-error cursor state is left unchanged here). -/
def iterStep {α : Type} (body : Nat → Deque α → Nat → DRes (Option α))
    (it : DequeIter) (d : Deque α) : DequeIter × DRes (Option α) :=
  if it.active then
    match body it.capturedState d it.position with
    | .ok (some x) => ({ it with position := it.position + 1 }, .ok (some x))
    | .ok none => ({ it with active := false }, .ok none)
    | .err e => (it, .err e)
  else (it, .ok none)

/-- Advance of the forward cursor. -/
def dequeIterNext {α : Type} (it : DequeIter) (d : Deque α) :
    DequeIter × DRes (Option α) :=
  iterStep dequeIterBody it d

/-- Advance of the reverse cursor. -/
def reverseDequeIterNext {α : Type} (it : DequeIter) (d : Deque α) :
    DequeIter × DRes (Option α) :=
  iterStep reverseDequeIterBody it d

/-- The last `n` elements of a list (used to state trimming-to-capacity). -/
def takeLast {α : Type} (l : List α) (n : Nat) : List α :=
  l.drop (l.length - n)

/-- The signed-index resolution as the specification words it (§4.2): a
negative index resolves to `len + i`, a non-negative one stands as is. -/
def specResolve (i : Int) (len : Nat) : Int :=
  if i < 0 then (len : Int) + i else i

/-- The index clamping of `insert` as the specification words it (§4.2): the
resolved index is clamped into `[0, len]`. -/
def specClamp (i : Int) (len : Nat) : Nat :=
  (min (max (specResolve i len) 0) (len : Int)).toNat

/-- A deque with its element order reversed (proof device relating
`appendleft` to `append`). -/
def mirror {α : Type} (d : Deque α) : Deque α :=
  { elements := d.elements.reverse, maxlen := d.maxlen, state := d.state }

/-! ### Helper lemmas -/

theorem bump_ne (s : Nat) : bump s ≠ s := by
  unfold bump USIZE
  omega

theorem takeLast_takeLast_append {α : Type} (A B : List α) (c : Nat) :
    takeLast (takeLast A c ++ B) c = takeLast (A ++ B) c := by
  unfold takeLast
  simp only [List.drop_append_eq_append_drop, List.drop_drop, List.length_append,
    List.length_drop]
  congr 1
  · congr 1
    omega
  · congr 1
    omega

theorem append_elements_bounded {α : Type} (d : Deque α) (x : α) (c : Nat)
    (hm : d.maxlen = some c) (hc : 1 ≤ c) (hlen : d.elements.length ≤ c) :
    (d.append x).elements = takeLast (d.elements ++ [x]) c ∧
    (d.append x).elements.length ≤ c := by
  unfold Deque.append takeLast
  rw [hm]
  by_cases hful : (some c : Option Nat) = some d.elements.length
  · have hceq : c = d.elements.length := by injection hful
    have hne : 1 ≤ d.elements.length := by omega
    rw [if_pos hful]
    constructor
    · have h1 : (d.elements ++ [x]).length - c = 1 := by
        simp [List.length_append]; omega
      rw [h1, List.drop_append_of_le_length (by omega), List.drop_one]
    · simp [List.length_append, List.length_tail]
      omega
  · have hces : c ≠ d.elements.length := fun h => hful (by rw [h])
    rw [if_neg hful]
    constructor
    · have h0 : (d.elements ++ [x]).length - c = 0 := by
        simp [List.length_append]; omega
      rw [h0, List.drop_zero]
    · simp [List.length_append]
      omega

theorem foldl_append_elements {α : Type} (xs : List α) (d : Deque α) (c : Nat)
    (hm : d.maxlen = some c) (hc : 1 ≤ c) (hlen : d.elements.length ≤ c) :
    (xs.foldl Deque.append d).elements = takeLast (d.elements ++ xs) c ∧
    (xs.foldl Deque.append d).elements.length ≤ c ∧
    (xs.foldl Deque.append d).maxlen = some c := by
  induction xs generalizing d with
  | nil =>
    refine ⟨?_, hlen, hm⟩
    unfold takeLast
    rw [List.append_nil]
    have h0 : d.elements.length - c = 0 := by omega
    rw [h0, List.drop_zero, List.foldl_nil]
  | cons x xs ih =>
    have hstep := append_elements_bounded d x c hm hc hlen
    have hm' : (d.append x).maxlen = some c := hm
    have hfold := ih (d.append x) hm' hstep.2
    refine ⟨?_, hfold.2.1, hfold.2.2⟩
    rw [List.foldl_cons, hfold.1, hstep.1, takeLast_takeLast_append, List.append_assoc]
    rfl

theorem mirror_mirror {α : Type} (d : Deque α) : mirror (mirror d) = d := by
  cases d
  simp [mirror]

theorem appendleft_eq_mirror {α : Type} (d : Deque α) (x : α) :
    d.appendleft x = mirror ((mirror d).append x) := by
  obtain ⟨els, m, s⟩ := d
  unfold Deque.appendleft Deque.append mirror
  simp only [List.length_reverse]
  by_cases h : m = some els.length
  · rw [if_pos h, if_pos h]
    simp only [Deque.mk.injEq, and_true]
    rw [List.reverse_concat, List.tail_reverse_eq_reverse_dropLast, List.reverse_reverse]
  · rw [if_neg h, if_neg h]
    simp only [Deque.mk.injEq, and_true]
    rw [List.reverse_concat, List.reverse_reverse]

theorem foldl_appendleft_eq_mirror {α : Type} (xs : List α) (d : Deque α) :
    xs.foldl Deque.appendleft d = mirror (xs.foldl Deque.append (mirror d)) := by
  induction xs generalizing d with
  | nil => simp [mirror_mirror]
  | cons x xs ih =>
    rw [List.foldl_cons, List.foldl_cons, ih, appendleft_eq_mirror, mirror_mirror]

/-! ### Claim theorems -/

/-- C1 (failing input for the recorded code bug): on a deque with capacity 0,
`append` evicts nothing (popping the front of the empty buffer is a no-op) and
then pushes, so the length exceeds the capacity — and keeps growing on further
pushes; `appendleft` behaves symmetrically. This contradicts the capacity
invariant the claim states. -/
theorem c1_maxlen_zero_append_exceeds_capacity :
    ((⟨[], some 0, 0⟩ : Deque Nat).append 7).maxlen = some 0 ∧
    ((⟨[], some 0, 0⟩ : Deque Nat).append 7).elements.length = 1 ∧
    (((⟨[], some 0, 0⟩ : Deque Nat).append 7).append 8).elements.length = 2 ∧
    ((⟨[], some 0, 0⟩ : Deque Nat).appendleft 9).elements.length = 1 := by
  decide

/-- C3: the generation-counter contract. Indexed set, indexed delete, full
reversal, in-place repetition and bulk-append-at-front leave the counter
unchanged even though they structurally change the content, while push-back,
push-front, pop at either end, clear, bulk-append, insert, rotate, and a
remove that finds a match each bump it. -/
theorem c3_generation_contract (d : Deque Nat) (i n : Int) (x y : Nat)
    (xs : List Nat) (mid : Option Int) (dr : Deque Nat)
    (himul : d.imul n = .ok dr)
    (hfound : (d.elements.findIdx? (· = x)).isSome = true) :
    ((d.setitem i y).1.state = d.state) ∧
    ((d.delitem i).1.state = d.state) ∧
    (d.reverse.state = d.state) ∧
    (dr.state = d.state) ∧
    ((d.extendleft xs).state = d.state) ∧
    ((d.append x).state = bump d.state) ∧
    ((d.appendleft x).state = bump d.state) ∧
    (d.pop.1.state = bump d.state) ∧
    (d.popleft.1.state = bump d.state) ∧
    (d.clear.state = bump d.state) ∧
    ((d.extend xs).state = bump d.state) ∧
    ((d.insert i x).1.state = bump d.state) ∧
    ((d.rotate mid).state = bump d.state) ∧
    ((d.remove x).1.state = bump d.state) := by
  refine ⟨?_, ?_, rfl, ?_, ?_, rfl, rfl, ?_, ?_, rfl, ?_, ?_, ?_, ?_⟩
  · unfold Deque.setitem
    cases hw : wrappedAt i d.elements.length <;> simp [hw]
    split <;> rfl
  · unfold Deque.delitem
    cases hw : wrappedAt i d.elements.length <;> simp [hw]
    split <;> rfl
  · unfold Deque.imul at himul
    cases hm : d.mulElements n <;> rw [hm] at himul
    · cases himul; rfl
    · cases himul
  · unfold Deque.extendleft
    cases d.maxlen <;> simp only
    split <;> rfl
  · unfold Deque.pop
    cases hg : d.elements.getLast? <;> simp [hg]
  · unfold Deque.popleft
    cases hh : d.elements.head? <;> simp [hh]
  · unfold Deque.extend
    cases d.maxlen <;> simp only
    split <;> rfl
  · unfold Deque.insert
    split <;> rfl
  · unfold Deque.rotate
    split
    · rfl
    · rfl
  · unfold Deque.remove
    cases hf : d.elements.findIdx? (· = x)
    · rw [hf] at hfound; simp at hfound
    · rfl

/-- Witness for C3 at a concrete container: `d = ⟨[1, 2], some 5, 10⟩`, with
`imul 2` succeeding and `remove 2` finding a match. -/
theorem c3_generation_contract_witness :
    ((⟨[1, 2], some 5, 10⟩ : Deque Nat).imul 2 = .ok ⟨[1, 2, 1, 2], some 5, 10⟩) ∧
    (([1, 2] : List Nat).findIdx? (· = 2)).isSome = true ∧
    ((⟨[1, 2], some 5, 10⟩ : Deque Nat).setitem 0 9).1.state = 10 ∧
    ((⟨[1, 2], some 5, 10⟩ : Deque Nat).append 3).state = bump 10 := by
  have h := c3_generation_contract (⟨[1, 2], some 5, 10⟩ : Deque Nat) 0 2 2 9 [3] none
    ⟨[1, 2, 1, 2], some 5, 10⟩ (by decide) (by decide)
  exact ⟨by decide, by decide, h.1, h.2.2.2.2.2.1⟩

/-- C4: a cursor (forward or reverse) whose captured generation differs from
the container's current generation — in particular after any single
state-bumping mutation — fails with the mutation-detected error on its next
advance, and this check fires even at a position where the element access
would otherwise be valid. -/
theorem c4_stale_cursor_advance (d0 d1 : Deque Nat)
    (hmut : d1.state = bump d0.state) :
    (dequeIterNext (newDequeIter d0) d1).2 = .err .concurrentMutation ∧
    (reverseDequeIterNext (newReverseDequeIter d0) d1).2 = .err .concurrentMutation ∧
    (∀ p : Nat, p < d1.elements.length →
      (dequeIterNext ⟨d0.state, p, true⟩ d1).2 = .err .concurrentMutation ∧
      (reverseDequeIterNext ⟨d0.state, p, true⟩ d1).2 = .err .concurrentMutation) := by
  have hne : d0.state ≠ d1.state := by
    rw [hmut]; exact fun h => bump_ne d0.state h.symm
  refine ⟨?_, ?_, fun p _ => ⟨?_, ?_⟩⟩ <;>
    simp [dequeIterNext, reverseDequeIterNext, iterStep, newDequeIter,
      newReverseDequeIter, dequeIterBody, reverseDequeIterBody, hne, hne.symm]

/-- Witness for C4: a one-element container at generation 0, mutated once to
generation 1; position 0 would be a valid access. -/
theorem c4_stale_cursor_advance_witness :
    ((⟨[1, 2], none, 1⟩ : Deque Nat).state = bump (⟨[1], none, 0⟩ : Deque Nat).state) ∧
    (dequeIterNext (newDequeIter (⟨[1], none, 0⟩ : Deque Nat)) (⟨[1, 2], none, 1⟩ : Deque Nat)).2
      = .err .concurrentMutation := by
  have h := c4_stale_cursor_advance (⟨[1], none, 0⟩ : Deque Nat) (⟨[1, 2], none, 1⟩ : Deque Nat)
    (by decide)
  exact ⟨by decide, h.1⟩

/-- C5 (counterexample to the claim as stated): pop-front on an empty
container does fail with the empty-container error, but the container is not
left exactly as before the call — its generation counter is bumped before the
emptiness check. -/
theorem c5_pop_empty_counterexample :
    ((⟨[], some 5, 3⟩ : Deque Nat).popleft.2 = .err .emptyContainer) ∧
    ((⟨[], some 5, 3⟩ : Deque Nat).popleft.1.state ≠ (⟨[], some 5, 3⟩ : Deque Nat).state) := by
  decide

/-- C5 (amended): pop-back and pop-front on an empty deque fail with the
empty-container error and leave the elements and capacity unchanged, but the
generation counter is incremented by the failed call. -/
theorem c5_pop_empty_amended (d : Deque Nat) (h : d.elements = []) :
    d.pop.2 = .err .emptyContainer ∧ d.pop.1.elements = d.elements ∧
    d.pop.1.maxlen = d.maxlen ∧ d.pop.1.state = bump d.state ∧
    d.popleft.2 = .err .emptyContainer ∧ d.popleft.1.elements = d.elements ∧
    d.popleft.1.maxlen = d.maxlen ∧ d.popleft.1.state = bump d.state := by
  obtain ⟨els, m, s⟩ := d
  simp only at h
  subst h
  simp [Deque.pop, Deque.popleft]

/-- Witness for C5 at the empty unbounded container at generation 0. -/
theorem c5_pop_empty_amended_witness :
    ((⟨[], none, 0⟩ : Deque Nat).elements = []) ∧
    (⟨[], none, 0⟩ : Deque Nat).pop.2 = .err .emptyContainer ∧
    (⟨[], none, 0⟩ : Deque Nat).popleft.1.state = bump 0 := by
  have h := c5_pop_empty_amended (⟨[], none, 0⟩ : Deque Nat) (by decide)
  exact ⟨by decide, h.1, h.2.2.2.2.2.2.2⟩

/-- C10: insert on a full deque bumps the generation counter before the
capacity check, so it fails with the full error while leaving the elements
unchanged but the counter incremented; a cursor (forward or reverse) captured
before the failed insert therefore fails with the mutation-detected error on
its next advance even though the contents never changed. -/
theorem c10_failed_insert_bumps_generation (d : Deque Nat) (x : Nat) (i : Int)
    (hfull : d.maxlen = some d.elements.length) :
    (d.insert i x).2 = .err .full ∧
    (d.insert i x).1.elements = d.elements ∧
    (d.insert i x).1.maxlen = d.maxlen ∧
    (d.insert i x).1.state = bump d.state ∧
    (dequeIterNext (newDequeIter d) (d.insert i x).1).2 = .err .concurrentMutation ∧
    (reverseDequeIterNext (newReverseDequeIter d) (d.insert i x).1).2
      = .err .concurrentMutation := by
  have hins : d.insert i x = ({ d with state := bump d.state }, .err .full) := by
    unfold Deque.insert
    rw [if_pos hfull]
  have hne : d.state ≠ bump d.state := fun h => bump_ne d.state h.symm
  rw [hins]
  refine ⟨rfl, rfl, rfl, rfl, ?_, ?_⟩ <;>
    simp [dequeIterNext, reverseDequeIterNext, iterStep, newDequeIter,
      newReverseDequeIter, dequeIterBody, reverseDequeIterBody, hne, hne.symm]

/-- Witness for C10 on a full deque of capacity 2 at generation 4. -/
theorem c10_failed_insert_bumps_generation_witness :
    ((⟨[1, 2], some 2, 4⟩ : Deque Nat).maxlen
      = some (⟨[1, 2], some 2, 4⟩ : Deque Nat).elements.length) ∧
    ((⟨[1, 2], some 2, 4⟩ : Deque Nat).insert 1 9).2 = .err .full ∧
    ((⟨[1, 2], some 2, 4⟩ : Deque Nat).insert 1 9).1.state = bump 4 ∧
    (dequeIterNext (newDequeIter (⟨[1, 2], some 2, 4⟩ : Deque Nat))
      ((⟨[1, 2], some 2, 4⟩ : Deque Nat).insert 1 9).1).2 = .err .concurrentMutation := by
  have h := c10_failed_insert_bumps_generation (⟨[1, 2], some 2, 4⟩ : Deque Nat) 9 1 (by decide)
  exact ⟨by decide, h.1, h.2.2.2.1, h.2.2.2.2.1⟩

/-- C2 (counterexample to the claim as stated): with capacity 2, pushing back
1 then 2 and then pushing front 3 leaves contents `[3, 1]` — the eviction
takes the element at the end opposite the push (here 2, the most recently
pushed value), so the survivors are not "the c most recently pushed values"
(which would be 2 and 3) once pushes mix both ends. -/
theorem c2_mixed_push_counterexample :
    ((((⟨[], some 2, 0⟩ : Deque Nat).append 1).append 2).appendleft 3).elements = [3, 1] ∧
    ¬ (2 ∈ ((((⟨[], some 2, 0⟩ : Deque Nat).append 1).append 2).appendleft 3).elements) := by
  decide

/-- C2 (amended): for capacity `c ≥ 1` and pushes all at the same end,
starting from an empty deque the length stays at most `c` and the surviving
elements are the most recently pushed `c` values (in push order for push-back,
reversed for push-front); in particular capacity 3 with push-back 1,2,3,4
leaves `[2,3,4]` (and push-front 1,2,3,4 leaves `[4,3,2]`). Capacity 0 is
excluded by the code slip recorded at C1. Since the statement quantifies over
every push sequence, it covers the state after each intermediate call. -/
theorem c2_same_end_push_window (c : Nat) (hc : 1 ≤ c) (xs : List Nat) :
    ((xs.foldl Deque.append ⟨[], some c, 0⟩).elements = takeLast xs c ∧
      (xs.foldl Deque.append ⟨[], some c, 0⟩).elements.length ≤ c) ∧
    ((xs.foldl Deque.appendleft ⟨[], some c, 0⟩).elements = (takeLast xs c).reverse ∧
      (xs.foldl Deque.appendleft ⟨[], some c, 0⟩).elements.length ≤ c) ∧
    (([1, 2, 3, 4] : List Nat).foldl Deque.append ⟨[], some 3, 0⟩).elements = [2, 3, 4] ∧
    (([1, 2, 3, 4] : List Nat).foldl Deque.appendleft ⟨[], some 3, 0⟩).elements = [4, 3, 2] := by
  have hfwd := foldl_append_elements xs (⟨[], some c, 0⟩ : Deque Nat) c rfl hc (by simp)
  have hmir : mirror (⟨[], some c, 0⟩ : Deque Nat) = ⟨[], some c, 0⟩ := rfl
  have hrev := foldl_appendleft_eq_mirror xs (⟨[], some c, 0⟩ : Deque Nat)
  rw [hmir] at hrev
  refine ⟨⟨?_, hfwd.2.1⟩, ⟨?_, ?_⟩, by decide, by decide⟩
  · simpa using hfwd.1
  · rw [hrev]
    show (xs.foldl Deque.append ⟨[], some c, 0⟩).elements.reverse = (takeLast xs c).reverse
    rw [hfwd.1]
    simp
  · rw [hrev]
    show (xs.foldl Deque.append ⟨[], some c, 0⟩).elements.reverse.length ≤ c
    rw [List.length_reverse]
    exact hfwd.2.1

/-- Witness for C2 at capacity 3 with the pushes 1,2,3,4. -/
theorem c2_same_end_push_window_witness :
    (1 ≤ 3) ∧
    (([1, 2, 3, 4] : List Nat).foldl Deque.append ⟨[], some 3, 0⟩).elements
      = takeLast [1, 2, 3, 4] 3 := by
  have h := c2_same_end_push_window 3 (by decide) [1, 2, 3, 4]
  exact ⟨by decide, h.1.1⟩

theorem wrappedAt_eq (i : Int) (len : Nat) :
    wrappedAt i len =
      if 0 ≤ specResolve i len ∧ specResolve i len < (len : Int)
      then some (specResolve i len).toNat else none := rfl

/-- C6: indexed get/set/delete resolve a negative index `i` to `len + i` and
fail with the out-of-range error unless the resolved index lies in
`[0, len)`, while `insert` clamps its index into `[0, len]` instead of
rejecting it; inserting at index 10 into a 3-element unbounded deque appends
at position 3. -/
theorem c6_index_resolution_vs_insert_clamping (d : Deque Nat) (i : Int) (x : Nat)
    (hfree : d.maxlen ≠ some d.elements.length) :
    ((d.getitem i).isOk = true ↔
      0 ≤ specResolve i d.elements.length ∧
        specResolve i d.elements.length < (d.elements.length : Int)) ∧
    ((d.setitem i x).2.isOk = true ↔
      0 ≤ specResolve i d.elements.length ∧
        specResolve i d.elements.length < (d.elements.length : Int)) ∧
    ((d.delitem i).2.isOk = true ↔
      0 ≤ specResolve i d.elements.length ∧
        specResolve i d.elements.length < (d.elements.length : Int)) ∧
    (¬ (0 ≤ specResolve i d.elements.length ∧
        specResolve i d.elements.length < (d.elements.length : Int)) →
      d.getitem i = .err .outOfRange ∧
      (d.setitem i x).2 = .err .outOfRange ∧ (d.setitem i x).1 = d ∧
      (d.delitem i).2 = .err .outOfRange ∧ (d.delitem i).1 = d) ∧
    ((d.insert i x).2 = .ok ()) ∧
    ((d.insert i x).1.elements =
      d.elements.take (specClamp i d.elements.length) ++
        x :: d.elements.drop (specClamp i d.elements.length)) ∧
    ((⟨[5, 6, 7], none, 0⟩ : Deque Nat).insert 10 42).1.elements = [5, 6, 7, 42] := by
  have hidx : (if i < 0 then
        if (-i).toNat > d.elements.length then 0
        else d.elements.length - (-i).toNat
      else if i.toNat > d.elements.length then d.elements.length else i.toNat)
      = specClamp i d.elements.length := by
    unfold specClamp specResolve
    split_ifs <;> omega
  have hins2 : (d.insert i x).2 = .ok () := by
    unfold Deque.insert
    rw [if_neg hfree]
  have hins1 : (d.insert i x).1.elements =
      d.elements.take (specClamp i d.elements.length) ++
        x :: d.elements.drop (specClamp i d.elements.length) := by
    unfold Deque.insert
    rw [if_neg hfree]
    dsimp only
    rw [hidx]
  have hw := wrappedAt_eq i d.elements.length
  by_cases hr : 0 ≤ specResolve i d.elements.length ∧
      specResolve i d.elements.length < (d.elements.length : Int)
  · rw [if_pos hr] at hw
    have hj : (specResolve i d.elements.length).toNat < d.elements.length := by
      obtain ⟨h1, h2⟩ := hr
      omega
    refine ⟨?_, ?_, ?_, fun hc => absurd hr hc, hins2, hins1, by decide⟩
    · unfold Deque.getitem
      rw [hw]
      dsimp only
      rw [List.getElem?_eq_getElem hj]
      simp [DRes.isOk, hr]
    · unfold Deque.setitem
      rw [hw]
      dsimp only
      rw [if_pos hj]
      simp [DRes.isOk, hr]
    · unfold Deque.delitem
      rw [hw]
      dsimp only
      rw [if_pos hj]
      simp [DRes.isOk, hr]
  · rw [if_neg hr] at hw
    refine ⟨?_, ?_, ?_, fun _ => ?_, hins2, hins1, by decide⟩
    · unfold Deque.getitem
      rw [hw]
      simp [DRes.isOk, hr]
    · unfold Deque.setitem
      rw [hw]
      simp [DRes.isOk, hr]
    · unfold Deque.delitem
      rw [hw]
      simp [DRes.isOk, hr]
    · unfold Deque.getitem Deque.setitem Deque.delitem
      rw [hw]
      dsimp only
      exact ⟨rfl, rfl, rfl, rfl, rfl⟩

/-- Witness for C6 on the unbounded 3-element deque `[5, 6, 7]` at index -1. -/
theorem c6_index_resolution_witness :
    ((⟨[5, 6, 7], none, 0⟩ : Deque Nat).maxlen
      ≠ some (⟨[5, 6, 7], none, 0⟩ : Deque Nat).elements.length) ∧
    ((⟨[5, 6, 7], none, 0⟩ : Deque Nat).getitem (-1)).isOk = true ∧
    ((⟨[5, 6, 7], none, 0⟩ : Deque Nat).insert (-1) 42).2 = .ok () := by
  have h := c6_index_resolution_vs_insert_clamping (⟨[5, 6, 7], none, 0⟩ : Deque Nat) (-1) 42
    (by decide)
  exact ⟨by decide, h.1.mpr (by decide), h.2.2.2.2.1⟩

/-- C7: bulk-append on a bounded deque bumps the generation exactly once and
keeps the capacity; when the incoming sequence alone exceeds the capacity the
existing content is cleared and the incoming sequence's leading elements
beyond the capacity are dropped; otherwise the existing content is trimmed
from the front so the combined length fits; with capacity 2, bulk-appending
`[1,2,3,4,5]` into an empty deque yields `[4,5]`. -/
theorem c7_extend_contract (d : Deque Nat) (xs : List Nat) (m : Nat)
    (hm : d.maxlen = some m) :
    (d.extend xs).state = bump d.state ∧
    (d.extend xs).maxlen = some m ∧
    (xs.length > m → (d.extend xs).elements = xs.drop (xs.length - m)) ∧
    (xs.length ≤ m →
      (d.extend xs).elements
        = d.elements.drop (d.elements.length - (m - xs.length)) ++ xs) ∧
    ((⟨[], some 2, 0⟩ : Deque Nat).extend [1, 2, 3, 4, 5]).elements = [4, 5] := by
  unfold Deque.extend
  rw [hm]
  refine ⟨?_, ?_, ?_, ?_, by decide⟩
  · dsimp only
    split <;> rfl
  · dsimp only
    split <;> rfl
  · intro h
    dsimp only
    rw [if_neg (by omega)]
  · intro h
    dsimp only
    by_cases hlt : m > xs.length
    · rw [if_pos hlt]
    · rw [if_neg hlt]
      have h1 : xs.length - m = 0 := by omega
      have h2 : m - xs.length = 0 := by omega
      rw [h1, h2, List.drop_zero, Nat.sub_zero, List.drop_length, List.nil_append]

/-- Witness for C7: extending `[9]` (capacity 3, generation 4) by `[1, 2]`. -/
theorem c7_extend_contract_witness :
    ((⟨[9], some 3, 4⟩ : Deque Nat).maxlen = some 3) ∧
    ((⟨[9], some 3, 4⟩ : Deque Nat).extend [1, 2]).state = bump 4 ∧
    ((⟨[9], some 3, 4⟩ : Deque Nat).extend [1, 2]).elements
      = ([9] : List Nat).drop (1 - (3 - 2)) ++ [1, 2] := by
  have h := c7_extend_contract (⟨[9], some 3, 4⟩ : Deque Nat) [1, 2] 3 (by decide)
  exact ⟨by decide, h.1, h.2.2.2.1 (by decide)⟩

theorem repeatList_length {α : Type} (l : List α) (n : Nat) :
    (repeatList l n).length = n * l.length := by
  induction n with
  | zero => simp [repeatList]
  | succ k ih =>
    simp only [repeatList, List.length_append, ih]
    ring

theorem checkRepeat_ok (len : Nat) (n : Int) (reps : Nat)
    (h : checkRepeat len n = .ok reps) : reps = n.toNat := by
  unfold checkRepeat at h
  split_ifs at h
  · cases h
    omega
  · cases h
    rfl

/-- C8: repetition fails with the overflow error when the requested total size
`len × n` cannot be represented; otherwise it produces a new deque with the
same capacity and a fresh generation of 0 whose contents, when `len × n`
exceeds the capacity, are the last `capacity` elements (the tail) of the
`n`-fold repeated sequence. -/
theorem c8_mul_contract (d : Deque Nat) (n : Int) (m : Nat) (r : Deque Nat)
    (hm : d.maxlen = some m) :
    (0 < n → d.elements.length * n.toNat > SIZE_LIMIT → d.mul n = .err .sizeOverflow) ∧
    (d.mul n = .ok r →
      r.maxlen = some m ∧ r.state = 0 ∧
      (m < n.toNat * d.elements.length →
        r.elements = takeLast (repeatList d.elements n.toNat) m)) := by
  constructor
  · intro hn hover
    unfold Deque.mul Deque.mulElements checkRepeat
    rw [if_neg (by omega), if_pos hover]
  · intro hok
    unfold Deque.mul Deque.mulElements at hok
    cases hchk : checkRepeat d.elements.length n <;> rw [hchk] at hok
    · have hreps := checkRepeat_ok _ _ _ hchk
      subst hreps
      rw [hm] at hok
      cases hok
      refine ⟨rfl, rfl, fun hbig => ?_⟩
      dsimp only
      unfold takeLast
      rw [repeatList_length]
    · cases hok

/-- Witness for C8: `[1, 2]` with capacity 3, repeated 4 times, keeps the last
3 elements of the repetition. -/
theorem c8_mul_contract_witness :
    ((⟨[1, 2], some 3, 7⟩ : Deque Nat).maxlen = some 3) ∧
    (⟨[2, 1, 2], some 3, 0⟩ : Deque Nat).maxlen = some 3 ∧
    (⟨[2, 1, 2], some 3, 0⟩ : Deque Nat).state = 0 ∧
    (⟨[2, 1, 2], some 3, 0⟩ : Deque Nat).elements
      = takeLast (repeatList [1, 2] (4 : Int).toNat) 3 := by
  have h := (c8_mul_contract (⟨[1, 2], some 3, 7⟩ : Deque Nat) 4 3
    (⟨[2, 1, 2], some 3, 0⟩ : Deque Nat) (by decide)).2 (by decide)
  exact ⟨by decide, h.1, h.2.1, h.2.2 (by decide)⟩

/-- C9: replaying the reconstruction triple produced by `__reduce__` —
constructing with the captured capacity argument (empty arguments when
unbounded) and repopulating from the element cursor — yields a deque with the
same element order and the same capacity, for every state satisfying the
capacity invariant. -/
theorem c9_reduce_replay_roundtrip (d : Deque Nat) (hinv : withinCap d) :
    ∃ r, replay (reduceDeque d) = .ok r ∧ r.elements = d.elements ∧ r.maxlen = d.maxlen := by
  obtain ⟨els, mo, s⟩ := d
  cases mo with
  | none =>
    exact ⟨⟨els, none, 1⟩, by simp [replay, reduceDeque, initDeque, Deque.extend, bump, USIZE],
      rfl, rfl⟩
  | some m =>
    have hle : els.length ≤ m := by simpa [withinCap] using hinv
    refine ⟨⟨els, some m, 1⟩, ?_, rfl, rfl⟩
    have hinit : initDeque (α := Nat) (some []) (some (m : Int)) = .ok ⟨[], some m, 0⟩ := by
      unfold initDeque
      dsimp only
      rw [if_neg (by omega : ¬ ((m : Int) < 0))]
      rw [Int.toNat_natCast]
      simp
    have hext : Deque.extend (⟨[], some m, 0⟩ : Deque Nat) els = ⟨els, some m, 1⟩ := by
      unfold Deque.extend
      dsimp only
      by_cases hgt : m > els.length
      · rw [if_pos hgt]
        simp [bump, USIZE]
      · rw [if_neg hgt]
        have hme : els.length - m = 0 := by omega
        simp [hme, bump, USIZE]
    have hred : reduceDeque (⟨els, some m, s⟩ : Deque Nat) = ⟨some [], some (m : Int), els⟩ :=
      rfl
    rw [hred]
    unfold replay
    rw [hinit]
    dsimp only
    rw [hext]

/-- Witness for C9 on the full bounded deque `[1, 2, 3]` with capacity 3. -/
theorem c9_reduce_replay_roundtrip_witness :
    withinCap (⟨[1, 2, 3], some 3, 5⟩ : Deque Nat) ∧
    ∃ r, replay (reduceDeque (⟨[1, 2, 3], some 3, 5⟩ : Deque Nat)) = .ok r ∧
      r.elements = [1, 2, 3] ∧ r.maxlen = some 3 := by
  have h := c9_reduce_replay_roundtrip (⟨[1, 2, 3], some 3, 5⟩ : Deque Nat) (by decide)
  exact ⟨by decide, h⟩

end DequeSpec
